import Mathlib

/-!
Verification of the `ctxt` semantic call-stack tracer (`src/ctxt/ctxt.py`).

The development shallowly embeds the data model and the operations of the
module: `StackTracerException` (Context Nodes) and its `format` renderer,
and the `Tracer` helpers `parse_args`, `lookup_stack_value`,
`lookup_args_value`, `gather_params`, `mk_traced_exc`, `mk_scope_exc`,
together with the pass-through classification and exception handling of the
`traced` / `scope` wrappers.  Python dictionaries are modelled as ordered
association lists with unique keys, Python values by a small inductive
type, and the host `str.format` by an executable scanner restricted to the
plain named replacement fields the module uses.
-/

set_option autoImplicit false

namespace Ctxt

/-- Python values occurring in the module: integers, strings and `None`.
`PyVal.none` is Python's `None` (which is also what the lookup helpers
return for a missing binding). -/
inductive PyVal where
  | int (n : Int)
  | str (s : String)
  | none
deriving DecidableEq, Repr

/-- Python `str(v)` (equal to `format(v, "")` for these types), as used when
a replacement field is substituted. -/
def pyStr : PyVal → String
  | PyVal.int n => toString n
  | PyVal.str s => s
  | PyVal.none => "None"

/-- A Python `dict` with string keys, modelled as an insertion-ordered
association list.  Code-built dictionaries never carry duplicate keys; the
lemmas that need this take a `Nodup` hypothesis on the key list. -/
abbrev Dict := List (String × PyVal)

/-- `d[k]` lookup (first matching key). -/
def dlookup : Dict → String → Option PyVal
  | [], _ => Option.none
  | (k', v) :: rest, k => if k' = k then some v else dlookup rest k

/-- `d[k] = v` assignment: replaces the value at the first occurrence of the
key, keeping its position, or appends a fresh key, as Python dicts do. -/
def dsetItem : Dict → String → PyVal → Dict
  | [], k, v => [(k, v)]
  | (k', v') :: rest, k, v =>
    if k' = k then (k, v) :: rest else (k', v') :: dsetItem rest k v

/-- `d.update(d2)`: assign every pair of `d2`, in order, into `d`. -/
def dupdate (d : Dict) (d2 : Dict) : Dict :=
  d2.foldl (fun acc p => dsetItem acc p.1 p.2) d

/-- First character class of the placeholder regex `[a-zA-Z_]`. -/
def isIdentStart (c : Char) : Bool := c.isAlpha || c = '_'

/-- Continuation character class of the placeholder regex `[a-zA-Z0-9_]`. -/
def isIdentCont (c : Char) : Bool := isIdentStart c || c.isDigit

/-- One-pass scanner equivalent to
`re.finditer(r"\x7b([a-zA-Z_][a-zA-Z0-9_]*)\x7d", text)` from
`Tracer.gather_params`: the state `some acc` means we are inside a candidate
field opened by a brace with `acc` the identifier read so far.  A failed
candidate's interior contains no further opening brace except possibly the
character at which it fails, so restarting the candidate at that character
agrees with the regex engine's retry-from-the-next-position behaviour. -/
def findPhGo : Option (List Char) → List Char → List String
  | _, [] => []
  | Option.none, c :: rest =>
    if c = '\x7b' then findPhGo (some []) rest else findPhGo Option.none rest
  | some acc, c :: rest =>
    if c = '\x7d' then
      match acc with
      | [] => findPhGo Option.none rest
      | _ :: _ => String.mk acc :: findPhGo Option.none rest
    else if c = '\x7b' then findPhGo (some []) rest
    else if (match acc with | [] => isIdentStart c | _ :: _ => isIdentCont c) then
      findPhGo (some (acc ++ [c])) rest
    else findPhGo Option.none rest

/-- All placeholder names of a template, in match order, duplicates kept
(the dict comprehension building `fmt_params` collapses them). -/
def findPlaceholders (t : String) : List String :=
  findPhGo Option.none t.data

/-- Errors `str.format` can raise: a missing replacement-field name
(`KeyError`; CPython reports non-identifier fields such as `:0:` with other
error classes, all modelled here by the same two constructors) and a
malformed brace structure (`ValueError`). -/
inductive FmtErr where
  | keyError (name : String)
  | valueError
deriving DecidableEq, Repr

/-- Errors observable from `StackTracerException.format`: the failed
`assert fmt in ['dict', 'dict-short']` guard, or an error escaping from a
nested `str.format` call. -/
inductive PyErr where
  | assertionError
  | fmtErr (e : FmtErr)
deriving DecidableEq, Repr

/-- Scanner state for the `str.format` model: ordinary text, a just-seen
opening or closing brace (which may pair with a duplicate into a literal
brace), or the inside of a replacement field with the name read so far. -/
inductive FmtState where
  | normal
  | lbrace
  | rbrace
  | field (acc : List Char)

/-- One-pass model of CPython `str.format(**params)` restricted to plain
named replacement fields (no conversions, no format specs, no nesting),
which is the fragment the module produces and consumes.  `\x7b\x7b` and
`\x7d\x7d` are literal braces; a lone closing brace, an opening brace inside
a field, or an unterminated field is a `ValueError`; a field whose name is
not a key of `params` (including non-identifier fields, which CPython
resolves differently or rejects) is a `KeyError`. -/
def pyFormatGo (params : Dict) : FmtState → List Char → Except FmtErr (List Char)
  | FmtState.normal, [] => Except.ok []
  | FmtState.lbrace, [] => Except.error FmtErr.valueError
  | FmtState.rbrace, [] => Except.error FmtErr.valueError
  | FmtState.field _, [] => Except.error FmtErr.valueError
  | FmtState.normal, c :: rest =>
    if c = '\x7b' then pyFormatGo params FmtState.lbrace rest
    else if c = '\x7d' then pyFormatGo params FmtState.rbrace rest
    else (pyFormatGo params FmtState.normal rest).map (fun s => c :: s)
  | FmtState.lbrace, c :: rest =>
    if c = '\x7b' then (pyFormatGo params FmtState.normal rest).map (fun s => '\x7b' :: s)
    else if c = '\x7d' then
      match dlookup params (String.mk []) with
      | some v => (pyFormatGo params FmtState.normal rest).map (fun s => (pyStr v).data ++ s)
      | Option.none => Except.error (FmtErr.keyError (String.mk []))
    else pyFormatGo params (FmtState.field [c]) rest
  | FmtState.rbrace, c :: rest =>
    if c = '\x7d' then (pyFormatGo params FmtState.normal rest).map (fun s => '\x7d' :: s)
    else Except.error FmtErr.valueError
  | FmtState.field acc, c :: rest =>
    if c = '\x7d' then
      match dlookup params (String.mk acc) with
      | some v => (pyFormatGo params FmtState.normal rest).map (fun s => (pyStr v).data ++ s)
      | Option.none => Except.error (FmtErr.keyError (String.mk acc))
    else if c = '\x7b' then Except.error FmtErr.valueError
    else pyFormatGo params (FmtState.field (acc ++ [c])) rest

/-- `t.format(**params)` for a template `t`. -/
def pyFormat (t : String) (params : Dict) : Except FmtErr String :=
  (pyFormatGo params FmtState.normal t.data).map String.mk

/-- The dict comprehension of `Tracer.gather_params`, seeding every
placeholder name with `None`; a repeated name keeps its first position. -/
def mkPhDict : Dict → List String → Dict
  | d, [] => d
  | d, k :: ks =>
    if (dlookup d k).isSome then mkPhDict d ks
    else mkPhDict (d ++ [(k, PyVal.none)]) ks

/-- The `for k in fmt_params` loop of `Tracer.gather_params`, iterating over
the keys in insertion order: a key of `params_map` is skipped, any other key
is assigned the fallback's answer.  The second component records, in order,
the names the fallback was invoked on. -/
def gatherLoop (params_map : Dict) (lookup_cb : String → PyVal) :
    List String → Dict × List String → Dict × List String
  | [], acc => acc
  | k :: ks, (d, calls) =>
    if (dlookup params_map k).isSome then gatherLoop params_map lookup_cb ks (d, calls)
    else gatherLoop params_map lookup_cb ks (dsetItem d k (lookup_cb k), calls ++ [k])

/-- `Tracer.gather_params` together with the trace of fallback invocations.
A fallback in the source returns a Python value, with `None` (`PyVal.none`)
standing for a missing binding, so the callback here is total and the
resolver itself can raise nothing. -/
def gather_params_tr : Option String → Dict → (String → PyVal) → Dict × List String
  | Option.none, params_map, _ => (params_map, [])
  | some t, params_map, lookup_cb =>
    if ¬ t.data.contains '\x7b' then (params_map, [])
    else
      gatherLoop params_map lookup_cb
        ((dupdate (mkPhDict [] (findPlaceholders t)) params_map).map Prod.fst)
        (dupdate (mkPhDict [] (findPlaceholders t)) params_map, [])

/-- `Tracer.gather_params`: the resolved parameter dictionary. -/
def Tracer.gather_params (text_spec : Option String) (params_map : Dict)
    (lookup_cb : String → PyVal) : Dict :=
  (gather_params_tr text_spec params_map lookup_cb).1

/-- The names `Tracer.gather_params` hands to its fallback, in call order. -/
def gatherCalls (text_spec : Option String) (params_map : Dict)
    (lookup_cb : String → PyVal) : List String :=
  (gather_params_tr text_spec params_map lookup_cb).2

/-- `StackTracerException`: one Context Node of the semantic chain, with the
three constructor fields of the source (`sub_exc=None, text=None,
params_map=None`, the latter defaulting to the empty dict). -/
inductive STE where
  | mk (sub_exc : Option STE) (text : Option String) (params_map : Dict)

/-- The `__sub_exc` field. -/
def STE.sub : STE → Option STE
  | STE.mk s _ _ => s

/-- The `__text` field. -/
def STE.text : STE → Option String
  | STE.mk _ t _ => t

/-- `StackTracerException.params`: the `__params_map` field. -/
def STE.params : STE → Dict
  | STE.mk _ _ p => p

/-- The value `format` returns: a Python object that is either a string or a
string-keyed dictionary. -/
inductive DVal where
  | str (s : String)
  | dict (entries : List (String × DVal))

/-- The `if self.__text:` block of `StackTracerException.format`: no entry
for a `None` or empty (falsy) text; a re-formatted text when `__params_map`
is non-empty (truthy); the stored text verbatim otherwise. -/
def STE.textPart (text : Option String) (params : Dict) :
    Except PyErr (List (String × DVal)) :=
  match text with
  | Option.none => Except.ok []
  | some t =>
    if t = "" then Except.ok []
    else if params ≠ [] then
      match pyFormat t params with
      | Except.ok t2 => Except.ok [("text", DVal.str t2)]
      | Except.error fe => Except.error (PyErr.fmtErr fe)
    else Except.ok [("text", DVal.str t)]

/-- `StackTracerException.format`: asserts the mode, renders the optional
`text` entry, and recursively renders `sub_exc` (always with mode `'dict'`,
whatever the outer mode was) into the `sub_exc` entry. -/
def STE.format : STE → String → Except PyErr DVal
  | STE.mk sub text params, fmt =>
    if fmt = "dict" ∨ fmt = "dict-short" then
      match STE.textPart text params with
      | Except.error e => Except.error e
      | Except.ok te =>
        match sub with
        | Option.none => Except.ok (DVal.dict te)
        | some inner =>
          match STE.format inner "dict" with
          | Except.error e => Except.error e
          | Except.ok d => Except.ok (DVal.dict (te ++ [("sub_exc", d)]))
    else Except.error PyErr.assertionError

/-- One stack frame record as returned by `inspect.trace()`: only its
`f_locals` mapping matters to the module.  In a `Tracer.lookup_stack_value`
call the list is ordered as `inspect.trace()` orders it: index `0` is the
outermost recorded frame and the last element the frame where the failure
was raised (the innermost). -/
structure Frame where
  f_locals : Dict
deriving Repr

/-- The search loop of `Tracer.lookup_stack_value` over the index sequence
`reversed(range(0, len(trace)))`, reading `trace[-i]` — Python's negative
indexing, under which `-0` is `0` and `-i` is `len - i` otherwise. -/
def lookupFrames (trace : List Frame) (name : String) : List Nat → PyVal
  | [] => PyVal.none
  | i :: is =>
    match trace.get? (if i = 0 then 0 else trace.length - i) with
    | some fr =>
      match dlookup fr.f_locals name with
      | some v => v
      | Option.none => lookupFrames trace name is
    | Option.none => lookupFrames trace name is

/-- `Tracer.lookup_stack_value`: first binding of `name` along the indices
`trace[-(n-1)], trace[-(n-2)], …, trace[-1], trace[-0]`, i.e. the frames
`trace[1], trace[2], …, trace[n-1], trace[0]` in that order; `None` when no
frame binds the name. -/
def Tracer.lookup_stack_value (trace : List Frame) (name : String) : PyVal :=
  lookupFrames trace name (List.range trace.length).reverse

/-- `Tracer.lookup_args_value`: bind the wrapped callable's declared
argument names to the positional arguments (`zip` truncating at the shorter
list), overlay the keyword arguments, and look the placeholder name up, with
`None` as the default. -/
def Tracer.lookup_args_value (name : String) (args_name : List String)
    (args : List PyVal) (kwargs : Dict) : PyVal :=
  match dlookup ((List.zip args_name args ++ kwargs).foldl
      (fun d q => dsetItem d q.1 q.2) []) name with
  | some v => v
  | Option.none => PyVal.none

/-- One argument of the variadic `Tracer.scope(*args)`: classified by its
runtime type as a template string, an explicit value map, or a list/tuple of
exception classes (the call-site pass-through set). -/
inductive ScopeArg where
  | str (s : String)
  | dict (d : Dict)
  | excs (ts : List String)
deriving DecidableEq, Repr

/-- `Tracer.parse_args`: the last string argument becomes the template, the
last dict argument the value map; sequence arguments are ignored here. -/
def Tracer.parse_args (args : List ScopeArg) : Option String × Dict :=
  args.foldl
    (fun acc a =>
      match a with
      | ScopeArg.dict d => (acc.1, d)
      | ScopeArg.str s => (some s, acc.2)
      | ScopeArg.excs _ => acc)
    (Option.none, [])

/-- `Tracer.mk_traced_exc`: resolve the template against the caught
exception's params and the wrapped callable's arguments, then raise (here:
return) the new wrapping node; `text_spec.format` may itself raise.  When
the resolved map is falsy (empty) the template text is stored verbatim. -/
def Tracer.mk_traced_exc (exc : STE) (text_spec : String) (args_name : List String)
    (args : List PyVal) (kwargs : Dict) : Except FmtErr STE :=
  match Tracer.gather_params (some text_spec) (STE.params exc)
      (fun name => Tracer.lookup_args_value name args_name args kwargs) with
  | [] => Except.ok (STE.mk (some exc) (some text_spec) [])
  | q :: qs =>
    match pyFormat text_spec (q :: qs) with
    | Except.ok text => Except.ok (STE.mk (some exc) (some text) [])
    | Except.error fe => Except.error fe

/-- `Tracer.mk_scope_exc`: with no template the node keeps `text = None` and
the explicit map; with a template, resolve placeholders through the ancestor
stack lookup, format the text (which may raise), and keep the resolved map
on the node. -/
def Tracer.mk_scope_exc (exc : STE) (args : List ScopeArg) (trace : List Frame) :
    Except FmtErr STE :=
  match Tracer.parse_args args with
  | (Option.none, params_map) =>
    Except.ok (STE.mk (some exc) Option.none params_map)
  | (some text_spec, params_map) =>
    match pyFormat text_spec
        (Tracer.gather_params (some text_spec) params_map
          (fun name => Tracer.lookup_stack_value trace name)) with
    | Except.ok text =>
      Except.ok (STE.mk (some exc) (some text)
        (Tracer.gather_params (some text_spec) params_map
          (fun name => Tracer.lookup_stack_value trace name)))
    | Except.error fe => Except.error fe

/-- A non-`StackTracerException` Python exception as the module observes it:
the classes `isinstance` would accept for it (its method resolution order)
and its `traceback.format_exc()` text. -/
structure PyExc where
  classes : List String
  tb : String
deriving DecidableEq, Repr

/-- `isinstance(e, tuple(ts))`. -/
def isinstanceT (e : PyExc) (ts : List String) : Bool :=
  ts.any (fun t => e.classes.contains t)

/-- `hasattr(cls, 'throws') and isinstance(exc, cls.throws)`: the class-level
pass-through check shared by all four entry shapes (`Option.none` models an
absent `throws` attribute). -/
def clsThrowsCheck (clsThrows : Option (List String)) (e : PyExc) : Bool :=
  match clsThrows with
  | some ts => isinstanceT e ts
  | Option.none => false

/-- The first list/tuple argument of a `scope` call, at which the
classification loop `for a in args: if isinstance(a, (list, tuple)): return
isinstance(exc, tuple(a))` stops. -/
def firstSeqArg : List ScopeArg → Option (List String)
  | [] => Option.none
  | ScopeArg.excs ts :: _ => some ts
  | ScopeArg.str _ :: rest => firstSeqArg rest
  | ScopeArg.dict _ :: rest => firstSeqArg rest

/-- The call-site check of both `scope` shapes after their leading tests
failed: decided by the first sequence argument, if any. -/
def seqArgCheck (args : List ScopeArg) (e : PyExc) : Bool :=
  match firstSeqArg args with
  | some ts => isinstanceT e ts
  | Option.none => false

/-- `throws(exc)` of the classmethod `Tracer.traced` wrapper. -/
def tracedClsThrows (clsThrows : Option (List String)) (e : PyExc) : Bool :=
  clsThrowsCheck clsThrows e

/-- `throws(exc)` of the instance `Tracer.__traced_inst` wrapper:
`isinstance(exc, self.__throws) or (hasattr(self, 'throws') and
isinstance(exc, self.throws))`. -/
def tracedInstThrows (instThrows : List String) (clsThrows : Option (List String))
    (e : PyExc) : Bool :=
  isinstanceT e instThrows || clsThrowsCheck clsThrows e

/-- `throws(exc)` of the classmethod `Tracer.scope` context manager. -/
def scopeClsThrows (clsThrows : Option (List String)) (args : List ScopeArg)
    (e : PyExc) : Bool :=
  if clsThrowsCheck clsThrows e then true else seqArgCheck args e

/-- `throws(exc)` of the instance `Tracer.__scope_inst` context manager. -/
def scopeInstThrows (instThrows : List String) (clsThrows : Option (List String))
    (args : List ScopeArg) (e : PyExc) : Bool :=
  if isinstanceT e instThrows || clsThrowsCheck clsThrows e then true
  else seqArgCheck args e

/-- How the wrapped body ended: a value, an already-wrapped
`StackTracerException`, or an ordinary Python exception. -/
inductive BodyResult (α : Type) where
  | ok (v : α)
  | ste (e : STE)
  | exc (e : PyExc)

/-- What escapes the annotation layer: the body's value, a (re)raised
`StackTracerException`, the original exception passed through unchanged, or
an error raised by `str.format` while building the new node. -/
inductive Outcome (α : Type) where
  | ok (v : α)
  | raisedSTE (e : STE)
  | raisedExc (e : PyExc)
  | raisedErr (err : FmtErr)

/-- The `try/except` of the classmethod `traced` wrapper `wrapped_f`: a
`StackTracerException` is re-wrapped unconditionally; any other exception is
re-raised unchanged if `throws(e)` holds and otherwise wrapped around a new
leaf node carrying `traceback.format_exc()`. -/
def tracedClsHandle (α : Type) (clsThrows : Option (List String))
    (text_spec : String) (args_name : List String) (args : List PyVal)
    (kwargs : Dict) : BodyResult α → Outcome α
  | BodyResult.ok v => Outcome.ok v
  | BodyResult.ste e =>
    match Tracer.mk_traced_exc e text_spec args_name args kwargs with
    | Except.ok e2 => Outcome.raisedSTE e2
    | Except.error fe => Outcome.raisedErr fe
  | BodyResult.exc e =>
    if tracedClsThrows clsThrows e then Outcome.raisedExc e
    else
      match Tracer.mk_traced_exc (STE.mk Option.none (some e.tb) [])
          text_spec args_name args kwargs with
      | Except.ok e2 => Outcome.raisedSTE e2
      | Except.error fe => Outcome.raisedErr fe

/-- The `try/except` of the instance `__traced_inst` wrapper. -/
def tracedInstHandle (α : Type) (instThrows : List String)
    (clsThrows : Option (List String)) (text_spec : String)
    (args_name : List String) (args : List PyVal) (kwargs : Dict) :
    BodyResult α → Outcome α
  | BodyResult.ok v => Outcome.ok v
  | BodyResult.ste e =>
    match Tracer.mk_traced_exc e text_spec args_name args kwargs with
    | Except.ok e2 => Outcome.raisedSTE e2
    | Except.error fe => Outcome.raisedErr fe
  | BodyResult.exc e =>
    if tracedInstThrows instThrows clsThrows e then Outcome.raisedExc e
    else
      match Tracer.mk_traced_exc (STE.mk Option.none (some e.tb) [])
          text_spec args_name args kwargs with
      | Except.ok e2 => Outcome.raisedSTE e2
      | Except.error fe => Outcome.raisedErr fe

/-- The `try/except` of the classmethod `scope` context manager. -/
def scopeClsHandle (α : Type) (clsThrows : Option (List String))
    (args : List ScopeArg) (trace : List Frame) : BodyResult α → Outcome α
  | BodyResult.ok v => Outcome.ok v
  | BodyResult.ste e =>
    match Tracer.mk_scope_exc e args trace with
    | Except.ok e2 => Outcome.raisedSTE e2
    | Except.error fe => Outcome.raisedErr fe
  | BodyResult.exc e =>
    if scopeClsThrows clsThrows args e then Outcome.raisedExc e
    else
      match Tracer.mk_scope_exc (STE.mk Option.none (some e.tb) []) args trace with
      | Except.ok e2 => Outcome.raisedSTE e2
      | Except.error fe => Outcome.raisedErr fe

/-- The `try/except` of the instance `__scope_inst` context manager. -/
def scopeInstHandle (α : Type) (instThrows : List String)
    (clsThrows : Option (List String)) (args : List ScopeArg)
    (trace : List Frame) : BodyResult α → Outcome α
  | BodyResult.ok v => Outcome.ok v
  | BodyResult.ste e =>
    match Tracer.mk_scope_exc e args trace with
    | Except.ok e2 => Outcome.raisedSTE e2
    | Except.error fe => Outcome.raisedErr fe
  | BodyResult.exc e =>
    if scopeInstThrows instThrows clsThrows args e then Outcome.raisedExc e
    else
      match Tracer.mk_scope_exc (STE.mk Option.none (some e.tb) []) args trace with
      | Except.ok e2 => Outcome.raisedSTE e2
      | Except.error fe => Outcome.raisedErr fe

@[simp]
theorem dlookup_nil (k : String) : dlookup [] k = Option.none := rfl

theorem dlookup_cons (k k' : String) (v : PyVal) (rest : Dict) :
    dlookup ((k', v) :: rest) k = if k' = k then some v else dlookup rest k := rfl

@[simp]
theorem dlookup_dsetItem_self (d : Dict) (k : String) (v : PyVal) :
    dlookup (dsetItem d k v) k = some v := by
  induction d with
  | nil => simp [dsetItem, dlookup]
  | cons p rest ih =>
    obtain ⟨k', v'⟩ := p
    by_cases h : k' = k
    · simp [dsetItem, dlookup, h]
    · simp [dsetItem, dlookup, h, ih]

@[simp]
theorem dlookup_dsetItem_ne (d : Dict) (k k' : String) (v : PyVal) (h : k' ≠ k) :
    dlookup (dsetItem d k' v) k = dlookup d k := by
  induction d with
  | nil => simp [dsetItem, dlookup, h]
  | cons p rest ih =>
    obtain ⟨k0, v0⟩ := p
    by_cases h0 : k0 = k'
    · subst h0
      simp [dsetItem, dlookup, h]
    · simp only [dsetItem, if_neg h0]
      by_cases h1 : k0 = k
      · simp [dlookup, h1]
      · simp [dlookup, h1, ih]

theorem dlookup_isSome_iff_mem (d : Dict) (k : String) :
    (dlookup d k).isSome ↔ k ∈ d.map Prod.fst := by
  induction d with
  | nil => simp [dlookup]
  | cons p rest ih =>
    obtain ⟨k', v⟩ := p
    by_cases h : k' = k
    · simp [dlookup, h]
    · simp [dlookup, h, ih, Ne.symm h]

theorem dlookup_eq_none_iff (d : Dict) (k : String) :
    dlookup d k = Option.none ↔ k ∉ d.map Prod.fst := by
  rw [← dlookup_isSome_iff_mem]
  cases dlookup d k <;> simp

theorem dlookup_append (d e : Dict) (k : String) :
    dlookup (d ++ e) k =
      match dlookup d k with
      | some v => some v
      | Option.none => dlookup e k := by
  induction d with
  | nil => simp [dlookup]
  | cons p rest ih =>
    obtain ⟨k', v⟩ := p
    by_cases h : k' = k
    · simp [dlookup, h]
    · simp [dlookup, h, ih]

theorem dsetItem_fresh (d : Dict) (k : String) (v : PyVal)
    (h : dlookup d k = Option.none) : dsetItem d k v = d ++ [(k, v)] := by
  induction d with
  | nil => simp [dsetItem]
  | cons p rest ih =>
    obtain ⟨k', v'⟩ := p
    by_cases h0 : k' = k
    · rw [dlookup_cons, if_pos h0] at h
      cases h
    · rw [dlookup_cons, if_neg h0] at h
      simp [dsetItem, h0, ih h]

theorem dsetItem_cons_eq (k : String) (v v0 : PyVal) (rest : Dict) :
    dsetItem ((k, v0) :: rest) k v = (k, v) :: rest := by
  simp [dsetItem]

theorem dsetItem_cons_ne (k0 k : String) (v v0 : PyVal) (rest : Dict)
    (h : k0 ≠ k) : dsetItem ((k0, v0) :: rest) k v = (k0, v0) :: dsetItem rest k v := by
  simp [dsetItem, h]

theorem dsetItem_keys_mem (d : Dict) (k k' : String) (v : PyVal) :
    k ∈ (dsetItem d k' v).map Prod.fst ↔ k ∈ d.map Prod.fst ∨ k = k' := by
  induction d with
  | nil =>
    simp only [dsetItem, List.map_cons, List.map_nil, List.mem_cons,
      List.not_mem_nil, or_false, false_or]
  | cons p rest ih =>
    obtain ⟨k0, v0⟩ := p
    by_cases h0 : k0 = k'
    · subst h0
      rw [dsetItem_cons_eq]
      simp only [List.map_cons, List.mem_cons]
      tauto
    · rw [dsetItem_cons_ne k0 k' v v0 rest h0]
      simp only [List.map_cons, List.mem_cons, ih]
      tauto

theorem dsetItem_nodupKeys (d : Dict) (k : String) (v : PyVal)
    (h : (d.map Prod.fst).Nodup) : ((dsetItem d k v).map Prod.fst).Nodup := by
  induction d with
  | nil => simp [dsetItem]
  | cons p rest ih =>
    obtain ⟨k0, v0⟩ := p
    rw [List.map_cons, List.nodup_cons] at h
    by_cases h0 : k0 = k
    · subst h0
      rw [dsetItem_cons_eq, List.map_cons, List.nodup_cons]
      exact h
    · rw [dsetItem_cons_ne k0 k v v0 rest h0, List.map_cons, List.nodup_cons]
      refine ⟨fun hmem => ?_, ih h.2⟩
      rw [dsetItem_keys_mem] at hmem
      rcases hmem with hmem | hmem
      · exact h.1 hmem
      · exact h0 hmem

theorem dupdate_nodupKeys (d p : Dict) (h : (d.map Prod.fst).Nodup) :
    ((dupdate d p).map Prod.fst).Nodup := by
  induction p generalizing d with
  | nil => exact h
  | cons q rest ih =>
    exact ih (dsetItem d q.1 q.2) (dsetItem_nodupKeys d q.1 q.2 h)

theorem dupdate_keys_mem (d p : Dict) (k : String) :
    k ∈ (dupdate d p).map Prod.fst ↔ k ∈ d.map Prod.fst ∨ k ∈ p.map Prod.fst := by
  induction p generalizing d with
  | nil => simp [dupdate]
  | cons q rest ih =>
    obtain ⟨k0, v0⟩ := q
    show k ∈ (dupdate (dsetItem d k0 v0) rest).map Prod.fst ↔ _
    rw [ih (dsetItem d k0 v0), dsetItem_keys_mem]
    simp only [List.map_cons, List.mem_cons]
    tauto

theorem dupdate_cons (d : Dict) (k : String) (v : PyVal) (rest : Dict) :
    dupdate d ((k, v) :: rest) = dupdate (dsetItem d k v) rest := rfl

theorem dupdate_lookup_of_none (d p : Dict) (k : String)
    (h : dlookup p k = Option.none) : dlookup (dupdate d p) k = dlookup d k := by
  induction p generalizing d with
  | nil => rfl
  | cons q rest ih =>
    obtain ⟨k0, v0⟩ := q
    by_cases h0 : k0 = k
    · rw [dlookup_cons, if_pos h0] at h
      cases h
    · rw [dlookup_cons, if_neg h0] at h
      rw [dupdate_cons, ih (dsetItem d k0 v0) h, dlookup_dsetItem_ne d k k0 v0 h0]

theorem dupdate_lookup_of_some (d p : Dict) (k : String) (v : PyVal)
    (hnd : (p.map Prod.fst).Nodup) (h : dlookup p k = some v) :
    dlookup (dupdate d p) k = some v := by
  induction p generalizing d with
  | nil => cases h
  | cons q rest ih =>
    obtain ⟨k0, v0⟩ := q
    simp only [List.map_cons, List.nodup_cons] at hnd
    by_cases h0 : k0 = k
    · rw [dlookup_cons, if_pos h0] at h
      have hrest : dlookup rest k = Option.none := by
        rw [dlookup_eq_none_iff, ← h0]
        exact hnd.1
      rw [dupdate_cons, dupdate_lookup_of_none (dsetItem d k0 v0) rest k hrest,
        ← h0, dlookup_dsetItem_self]
      exact h
    · rw [dlookup_cons, if_neg h0] at h
      rw [dupdate_cons]
      exact ih (dsetItem d k0 v0) hnd.2 h

theorem dupdate_fresh (d p : Dict) (hnd : (p.map Prod.fst).Nodup)
    (hfresh : ∀ k ∈ p.map Prod.fst, dlookup d k = Option.none) :
    dupdate d p = d ++ p := by
  induction p generalizing d with
  | nil => simp [dupdate]
  | cons q rest ih =>
    obtain ⟨k0, v0⟩ := q
    simp only [List.map_cons, List.nodup_cons] at hnd
    have h2 : ∀ k ∈ rest.map Prod.fst, dlookup (d ++ [(k0, v0)]) k = Option.none := by
      intro k hk
      rw [dlookup_append, hfresh k (by simp [hk])]
      have hne : k0 ≠ k := fun h => hnd.1 (h ▸ hk)
      simp [dlookup, hne]
    rw [dupdate_cons, dsetItem_fresh d k0 v0 (hfresh k0 (by simp)),
      ih (d ++ [(k0, v0)]) hnd.2 h2]
    simp

theorem dupdate_nil_left (p : Dict) (hnd : (p.map Prod.fst).Nodup) :
    dupdate [] p = p := by
  rw [dupdate_fresh [] p hnd (fun k _ => rfl)]
  simp

theorem findPhGo_ne_nil_contains (cs : List Char)
    (h : findPhGo Option.none cs ≠ []) : cs.contains '\x7b' = true := by
  induction cs with
  | nil => simp [findPhGo] at h
  | cons c rest ih =>
    by_cases hc : c = '\x7b'
    · subst hc
      simp [List.contains_cons]
    · rw [findPhGo, if_neg hc] at h
      have hmem : '\x7b' ∈ rest := by simpa using ih h
      simp [List.contains_cons, hmem]

theorem mkPhDict_keys_mem (ks : List String) (d : Dict) (k : String) :
    k ∈ (mkPhDict d ks).map Prod.fst ↔ k ∈ d.map Prod.fst ∨ k ∈ ks := by
  induction ks generalizing d with
  | nil => simp [mkPhDict]
  | cons k0 rest ih =>
    by_cases h0 : (dlookup d k0).isSome
    · rw [mkPhDict, if_pos h0, ih d]
      rw [dlookup_isSome_iff_mem] at h0
      simp only [List.mem_cons]
      constructor
      · tauto
      · rintro (hk | hk | hk)
        · tauto
        · subst hk
          tauto
        · tauto
    · rw [mkPhDict, if_neg h0, ih (d ++ [(k0, PyVal.none)])]
      simp only [List.map_append, List.map_cons, List.map_nil, List.mem_append,
        List.mem_cons, List.mem_singleton, List.not_mem_nil, or_false]
      tauto

theorem mkPhDict_nodupKeys (ks : List String) (d : Dict)
    (h : (d.map Prod.fst).Nodup) : ((mkPhDict d ks).map Prod.fst).Nodup := by
  induction ks generalizing d with
  | nil => exact h
  | cons k0 rest ih =>
    by_cases h0 : (dlookup d k0).isSome
    · rw [mkPhDict, if_pos h0]
      exact ih d h
    · rw [mkPhDict, if_neg h0]
      refine ih (d ++ [(k0, PyVal.none)]) ?_
      have hk0 : k0 ∉ d.map Prod.fst := by
        rw [← dlookup_isSome_iff_mem]
        simpa using h0
      simp [List.nodup_append, h, hk0]

theorem gatherLoop_all_skip (p : Dict) (cb : String → PyVal) (ks : List String)
    (acc : Dict × List String) (h : ∀ k ∈ ks, (dlookup p k).isSome) :
    gatherLoop p cb ks acc = acc := by
  induction ks generalizing acc with
  | nil =>
    obtain ⟨d, c⟩ := acc
    rfl
  | cons k0 rest ih =>
    obtain ⟨d, c⟩ := acc
    rw [gatherLoop, if_pos (h k0 (by simp))]
    exact ih (d, c) (fun k hk => h k (by simp [hk]))

theorem gatherLoop_fst_lookup_skip (p : Dict) (cb : String → PyVal) (ks : List String)
    (d : Dict) (c : List String) (k : String) (hk : (dlookup p k).isSome) :
    dlookup (gatherLoop p cb ks (d, c)).1 k = dlookup d k := by
  induction ks generalizing d c with
  | nil => rfl
  | cons k0 rest ih =>
    by_cases h0 : (dlookup p k0).isSome
    · rw [gatherLoop, if_pos h0]
      exact ih d c
    · rw [gatherLoop, if_neg h0]
      have hne : k0 ≠ k := by
        intro he
        exact h0 (he ▸ hk)
      rw [ih (dsetItem d k0 (cb k0)) (c ++ [k0]),
        dlookup_dsetItem_ne d k k0 (cb k0) hne]

theorem gatherLoop_fst_lookup_notin (p : Dict) (cb : String → PyVal) (ks : List String)
    (d : Dict) (c : List String) (k : String) (h : k ∉ ks) :
    dlookup (gatherLoop p cb ks (d, c)).1 k = dlookup d k := by
  induction ks generalizing d c with
  | nil => rfl
  | cons k0 rest ih =>
    have hne : k0 ≠ k := fun he => h (by simp [he])
    have hrest : k ∉ rest := fun hr => h (by simp [hr])
    by_cases h0 : (dlookup p k0).isSome
    · rw [gatherLoop, if_pos h0]
      exact ih d c hrest
    · rw [gatherLoop, if_neg h0, ih (dsetItem d k0 (cb k0)) (c ++ [k0]) hrest,
        dlookup_dsetItem_ne d k k0 (cb k0) hne]

theorem gatherLoop_fst_lookup_set (p : Dict) (cb : String → PyVal) (ks : List String)
    (d : Dict) (c : List String) (k : String) (hnd : ks.Nodup) (hmem : k ∈ ks)
    (hnone : dlookup p k = Option.none) :
    dlookup (gatherLoop p cb ks (d, c)).1 k = some (cb k) := by
  induction ks generalizing d c with
  | nil => cases hmem
  | cons k0 rest ih =>
    rw [List.nodup_cons] at hnd
    by_cases he : k0 = k
    · subst he
      have h0 : ¬ (dlookup p k0).isSome := by simp [hnone]
      rw [gatherLoop, if_neg h0,
        gatherLoop_fst_lookup_notin p cb rest (dsetItem d k0 (cb k0)) (c ++ [k0]) k0 hnd.1,
        dlookup_dsetItem_self]
    · have hrest : k ∈ rest := by
        rcases List.mem_cons.mp hmem with h | h
        · exact absurd h.symm he
        · exact h
      by_cases h0 : (dlookup p k0).isSome
      · rw [gatherLoop, if_pos h0]
        exact ih d c hnd.2 hrest
      · rw [gatherLoop, if_neg h0]
        exact ih (dsetItem d k0 (cb k0)) (c ++ [k0]) hnd.2 hrest

theorem gatherLoop_snd (p : Dict) (cb : String → PyVal) (ks : List String)
    (d : Dict) (c : List String) :
    (gatherLoop p cb ks (d, c)).2 =
      c ++ ks.filter (fun k => (dlookup p k).isNone) := by
  induction ks generalizing d c with
  | nil => simp [gatherLoop]
  | cons k0 rest ih =>
    by_cases h0 : (dlookup p k0).isSome
    · rw [gatherLoop, if_pos h0, ih d c]
      have : (dlookup p k0).isNone = false := by
        simp only [Option.isNone_eq_false_iff]
        exact h0
      simp [List.filter_cons, this]
    · rw [gatherLoop, if_neg h0, ih (dsetItem d k0 (cb k0)) (c ++ [k0])]
      have : (dlookup p k0).isNone = true := by
        simp only [Option.isNone_iff_eq_none]
        simpa using h0
      simp [List.filter_cons, this]

/-- C5: when the template is absent, or extracts no placeholder, the
resolver hands back the explicit value map unchanged and never invokes the
fallback (the recorded call trace is empty). -/
theorem gather_params_no_placeholders_id
    (text_spec : Option String) (params_map : Dict) (lookup_cb : String → PyVal)
    (hnd : (params_map.map Prod.fst).Nodup)
    (h : text_spec = Option.none ∨ ∃ t, text_spec = some t ∧ findPlaceholders t = []) :
    Tracer.gather_params text_spec params_map lookup_cb = params_map ∧
    gatherCalls text_spec params_map lookup_cb = [] := by
  rcases h with h | ⟨t, rfl, hph⟩
  · subst h
    exact ⟨rfl, rfl⟩
  · have key : gather_params_tr (some t) params_map lookup_cb = (params_map, []) := by
      rw [gather_params_tr]
      by_cases hb : t.data.contains '\x7b'
      · rw [if_neg (not_not_intro hb), hph]
        have h1 : dupdate (mkPhDict [] []) params_map = params_map := by
          rw [show mkPhDict ([] : Dict) ([] : List String) = [] from rfl]
          exact dupdate_nil_left params_map hnd
        rw [h1]
        refine gatherLoop_all_skip params_map lookup_cb _ _ (fun k hk => ?_)
        rw [dlookup_isSome_iff_mem]
        exact hk
      · rw [if_pos hb]
    exact ⟨congrArg Prod.fst key, congrArg Prod.snd key⟩

/-- C5 witness at a concrete placeholder-free template. -/
theorem gather_params_no_placeholders_id_witness :
    Tracer.gather_params (some "plain text") [("a", PyVal.int 1)] (fun _ => PyVal.int 7)
      = [("a", PyVal.int 1)] ∧
    gatherCalls (some "plain text") [("a", PyVal.int 1)] (fun _ => PyVal.int 7) = [] :=
  gather_params_no_placeholders_id (some "plain text") [("a", PyVal.int 1)]
    (fun _ => PyVal.int 7) (by decide) (Or.inr ⟨"plain text", rfl, by decide⟩)

/-- C6: a name bound in the explicit map keeps exactly its explicit value in
the resolver's output, and the fallback is never called on it. -/
theorem gather_params_explicit_wins
    (text_spec : Option String) (params_map : Dict) (lookup_cb : String → PyVal)
    (k : String) (hnd : (params_map.map Prod.fst).Nodup)
    (hk : (dlookup params_map k).isSome) :
    dlookup (Tracer.gather_params text_spec params_map lookup_cb) k
      = dlookup params_map k ∧
    k ∉ gatherCalls text_spec params_map lookup_cb := by
  cases text_spec with
  | none => exact ⟨rfl, by simp [gatherCalls, gather_params_tr]⟩
  | some t =>
    rw [Tracer.gather_params, gatherCalls, gather_params_tr]
    by_cases hb : t.data.contains '\x7b'
    · rw [if_neg (not_not_intro hb)]
      obtain ⟨v, hv⟩ := Option.isSome_iff_exists.mp hk
      constructor
      · rw [gatherLoop_fst_lookup_skip _ _ _ _ _ _ hk]
        rw [dupdate_lookup_of_some _ params_map k v hnd hv, hv]
      · rw [gatherLoop_snd]
        simp only [List.nil_append, List.mem_filter]
        rintro ⟨-, habs⟩
        rw [hv] at habs
        cases habs
    · rw [if_pos hb]
      exact ⟨rfl, by simp⟩

/-- C6 witness: explicit binding of `a` wins over a fallback that would
answer differently. -/
theorem gather_params_explicit_wins_witness :
    dlookup (Tracer.gather_params (some "x={a}") [("a", PyVal.int 5)]
      (fun _ => PyVal.int 9)) "a" = dlookup [("a", PyVal.int 5)] "a" ∧
    "a" ∉ gatherCalls (some "x={a}") [("a", PyVal.int 5)] (fun _ => PyVal.int 9) :=
  gather_params_explicit_wins (some "x={a}") [("a", PyVal.int 5)]
    (fun _ => PyVal.int 9) "a" (by decide) (by decide)

/-- C7: for a template with at least one placeholder the (total, non-raising)
resolver covers every extracted placeholder name: names bound explicitly or
by the fallback are present, and a name the fallback answers `None` for is
bound to `None` rather than omitted. -/
theorem gather_params_total_coverage
    (t : String) (params_map : Dict) (lookup_cb : String → PyVal)
    (hnd : (params_map.map Prod.fst).Nodup)
    (hph : findPlaceholders t ≠ []) :
    (∀ name ∈ findPlaceholders t,
      (dlookup (Tracer.gather_params (some t) params_map lookup_cb) name).isSome) ∧
    (∀ name ∈ findPlaceholders t, dlookup params_map name = Option.none →
      dlookup (Tracer.gather_params (some t) params_map lookup_cb) name
        = some (lookup_cb name)) ∧
    (∀ name ∈ findPlaceholders t, dlookup params_map name = Option.none →
      lookup_cb name = PyVal.none →
      dlookup (Tracer.gather_params (some t) params_map lookup_cb) name
        = some PyVal.none) := by
  have hb : t.data.contains '\x7b' = true := findPhGo_ne_nil_contains t.data hph
  have hgp : Tracer.gather_params (some t) params_map lookup_cb =
      (gatherLoop params_map lookup_cb
        ((dupdate (mkPhDict [] (findPlaceholders t)) params_map).map Prod.fst)
        (dupdate (mkPhDict [] (findPlaceholders t)) params_map, [])).1 := by
    rw [Tracer.gather_params, gather_params_tr, if_neg (not_not_intro hb)]
  have hnd1 : ((dupdate (mkPhDict [] (findPlaceholders t)) params_map).map Prod.fst).Nodup :=
    dupdate_nodupKeys _ params_map (mkPhDict_nodupKeys (findPlaceholders t) [] (by simp))
  have hset : ∀ name ∈ findPlaceholders t, dlookup params_map name = Option.none →
      dlookup (Tracer.gather_params (some t) params_map lookup_cb) name
        = some (lookup_cb name) := by
    intro name hname hnone
    rw [hgp]
    refine gatherLoop_fst_lookup_set _ _ _ _ _ _ hnd1 ?_ hnone
    rw [dupdate_keys_mem, mkPhDict_keys_mem]
    simp [hname]
  refine ⟨?_, hset, fun name hname hnone hcb => by rw [hset name hname hnone, hcb]⟩
  intro name hname
  cases hv : dlookup params_map name with
  | none => rw [hset name hname hv]; rfl
  | some v =>
    rw [hgp, gatherLoop_fst_lookup_skip _ _ _ _ _ _ (by rw [hv]; rfl),
      dupdate_lookup_of_some _ params_map name v hnd hv]
    rfl

/-- C7 witness: the fallback answers `None` for `b`, which is still bound. -/
theorem gather_params_total_coverage_witness :
    dlookup (Tracer.gather_params (some "{a} and {b}") [("a", PyVal.int 1)]
      (fun _ => PyVal.none)) "b" = some PyVal.none :=
  (gather_params_total_coverage "{a} and {b}" [("a", PyVal.int 1)]
    (fun _ => PyVal.none) (by decide) (by decide)).2.2 "b" (by decide) rfl rfl

@[simp]
theorem STE.sub_mk (s : Option STE) (t : Option String) (p : Dict) :
    STE.sub (STE.mk s t p) = s := rfl

@[simp]
theorem STE.text_mk (s : Option STE) (t : Option String) (p : Dict) :
    STE.text (STE.mk s t p) = t := rfl

@[simp]
theorem STE.params_mk (s : Option STE) (t : Option String) (p : Dict) :
    STE.params (STE.mk s t p) = p := rfl

theorem STE.recAux (P : STE → Prop)
    (h : ∀ sub text params,
      (∀ inner, sub = some inner → P inner) → P (STE.mk sub text params)) :
    ∀ e, P e
  | STE.mk Option.none t p => h Option.none t p (fun _ hi => by cases hi)
  | STE.mk (some inner) t p =>
    h (some inner) t p
      (fun i hi => Option.some.inj hi ▸ STE.recAux P h inner)

theorem textPart_no_assert (t : Option String) (p : Dict) :
    STE.textPart t p ≠ Except.error PyErr.assertionError := by
  cases t with
  | none => simp [STE.textPart]
  | some t0 =>
    rw [STE.textPart]
    by_cases ht : t0 = ""
    · simp [ht]
    · rw [if_neg ht]
      by_cases hp : p = []
      · rw [if_neg (not_not_intro hp)]
        simp
      · rw [if_pos hp]
        cases hf : pyFormat t0 p with
        | ok s => simp
        | error fe => simp

theorem textPart_shape (t : Option String) (p : Dict) (te : List (String × DVal))
    (h : STE.textPart t p = Except.ok te) :
    (te = [] ∧ (t = Option.none ∨ t = some "")) ∨
    (∃ s t0, te = [("text", DVal.str s)] ∧ t = some t0 ∧ t0 ≠ "") := by
  cases t with
  | none =>
    rw [STE.textPart] at h
    cases h
    exact Or.inl ⟨rfl, Or.inl rfl⟩
  | some t0 =>
    rw [STE.textPart] at h
    by_cases ht : t0 = ""
    · rw [if_pos ht] at h
      cases h
      exact Or.inl ⟨rfl, Or.inr (by rw [ht])⟩
    · rw [if_neg ht] at h
      by_cases hp : p = []
      · rw [if_neg (not_not_intro hp)] at h
        cases h
        exact Or.inr ⟨t0, t0, rfl, rfl, ht⟩
      · rw [if_pos hp] at h
        cases hf : pyFormat t0 p with
        | ok s =>
          rw [hf] at h
          cases h
          exact Or.inr ⟨s, t0, rfl, rfl, ht⟩
        | error fe =>
          rw [hf] at h
          cases h

theorem pyFormatGo_braceFree (p : Dict) (cs : List Char)
    (h : ∀ c ∈ cs, c ≠ '\x7b' ∧ c ≠ '\x7d') :
    pyFormatGo p FmtState.normal cs = Except.ok cs := by
  induction cs with
  | nil => rfl
  | cons c rest ih =>
    have hc := h c (by simp)
    rw [pyFormatGo, if_neg hc.1, if_neg hc.2,
      ih (fun c' hc' => h c' (by simp [hc']))]
    rfl

theorem pyFormat_braceFree (t : String) (p : Dict)
    (h : ∀ c ∈ t.data, c ≠ '\x7b' ∧ c ≠ '\x7d') :
    pyFormat t p = Except.ok t := by
  rw [pyFormat, pyFormatGo_braceFree p t.data h]
  cases t
  rfl

theorem format_leaf (tb : String) (htb : tb ≠ "") :
    STE.format (STE.mk Option.none (some tb) []) "dict"
      = Except.ok (DVal.dict [("text", DVal.str tb)]) := by
  rw [STE.format, if_pos (Or.inl rfl), STE.textPart, if_neg htb]
  rfl

/-- C10: the mode guard of `format` admits exactly `'dict'` and
`'dict-short'`, any other mode fails the assertion, and mode `'dict-short'`
produces the very same result as `'dict'` (the mode is never consulted
again after the guard; the recursion hard-codes `'dict'`). -/
theorem format_mode_guard (e : STE) (m : String) :
    (STE.format e m = Except.error PyErr.assertionError ↔
      ¬ (m = "dict" ∨ m = "dict-short")) ∧
    STE.format e "dict-short" = STE.format e "dict" := by
  induction e using STE.recAux generalizing m with
  | h sub t p ih =>
    constructor
    · by_cases hm : m = "dict" ∨ m = "dict-short"
      · rw [STE.format, if_pos hm]
        simp only [hm, not_true_eq_false, iff_false]
        cases htp : STE.textPart t p with
        | error err =>
          intro hcon
          dsimp only at hcon
          injection hcon with he
          exact textPart_no_assert t p (he ▸ htp)
        | ok te =>
          cases sub with
          | none => simp
          | some inner =>
            cases hfi : STE.format inner "dict" with
            | error err2 =>
              intro hcon
              dsimp only at hcon
              rw [hfi] at hcon
              dsimp only at hcon
              injection hcon with he
              have := (ih inner rfl "dict").1
              rw [he] at hfi
              rw [hfi] at this
              simp at this
            | ok di =>
              intro hcon
              dsimp only at hcon
              rw [hfi] at hcon
              dsimp only at hcon
              cases hcon
      · rw [STE.format, if_neg hm]
        simp [hm]
    · rw [STE.format, STE.format, if_pos (Or.inr rfl), if_pos (Or.inl rfl)]

/-- C2 counterexample: a Context Node whose message is the empty string has
a message, yet its `'dict'` rendering carries no `"text"` key (Python
truthiness of `if self.__text:`). -/
theorem render_text_key_empty_message :
    STE.text (STE.mk Option.none (some "") []) = some "" ∧
    STE.format (STE.mk Option.none (some "") []) "dict"
      = Except.ok (DVal.dict []) :=
  ⟨rfl, rfl⟩

/-- C2 (amended): whenever `format('dict')` returns, it returns a mapping
with keys among `"text"` and `"sub_exc"` only; `"text"` is present iff the
node's message is present and non-empty; `"sub_exc"` is present iff the
inner link is non-absent, and its value is the recursive rendering of the
inner node; and the leaf node the code builds around an original failure
(no inner link, the raw traceback text, empty params) renders that raw text
as its `"text"` value. -/
theorem render_dict_contract :
    (∀ (e : STE) (d : DVal),
      STE.format e "dict" = Except.ok d →
      ∃ es, d = DVal.dict es ∧
        (∀ k ∈ es.map Prod.fst, k = "text" ∨ k = "sub_exc") ∧
        ((∃ v, ("text", v) ∈ es) ↔ ∃ s, STE.text e = some s ∧ s ≠ "") ∧
        ((∃ v, ("sub_exc", v) ∈ es) ↔ STE.sub e ≠ Option.none) ∧
        (∀ v, ("sub_exc", v) ∈ es →
          ∃ inner, STE.sub e = some inner ∧
            STE.format inner "dict" = Except.ok v)) ∧
    (∀ tb : String, tb ≠ "" →
      STE.format (STE.mk Option.none (some tb) []) "dict"
        = Except.ok (DVal.dict [("text", DVal.str tb)])) := by
  constructor
  · intro e d h
    obtain ⟨sub, t, p⟩ := e
    rw [STE.format, if_pos (Or.inl rfl)] at h
    cases htp : STE.textPart t p with
    | error err =>
      rw [htp] at h
      cases h
    | ok te =>
      rw [htp] at h
      dsimp only at h
      have hshape := textPart_shape t p te htp
      cases sub with
      | none =>
        dsimp only at h
        cases h
        refine ⟨te, rfl, ?_, ?_, ?_, ?_⟩
        · rcases hshape with ⟨hte, -⟩ | ⟨s, t0, hte, -, -⟩ <;> subst hte <;> simp
        · rcases hshape with ⟨hte, ht⟩ | ⟨s, t0, hte, ht, hne⟩ <;> subst hte
          · rcases ht with ht | ht <;> simp [ht]
          · simp [ht, hne]
        · rcases hshape with ⟨hte, -⟩ | ⟨s, t0, hte, -, -⟩ <;> subst hte <;> simp
        · rcases hshape with ⟨hte, -⟩ | ⟨s, t0, hte, -, -⟩ <;> subst hte <;> simp
      | some inner =>
        dsimp only at h
        cases hfi : STE.format inner "dict" with
        | error e2 =>
          rw [hfi] at h
          dsimp only at h
          cases h
        | ok di =>
          rw [hfi] at h
          dsimp only at h
          cases h
          refine ⟨te ++ [("sub_exc", di)], rfl, ?_, ?_, ?_, ?_⟩
          · rcases hshape with ⟨hte, -⟩ | ⟨s, t0, hte, -, -⟩ <;> subst hte <;> simp
          · rcases hshape with ⟨hte, ht⟩ | ⟨s, t0, hte, ht, hne⟩ <;> subst hte
            · rcases ht with ht | ht <;> simp [ht]
            · simp [ht, hne]
          · rcases hshape with ⟨hte, -⟩ | ⟨s, t0, hte, -, -⟩ <;> subst hte <;> simp
          · intro v hv
            rcases hshape with ⟨hte, -⟩ | ⟨s, t0, hte, -, -⟩ <;> subst hte <;>
              simp at hv <;> exact ⟨inner, rfl, hv ▸ hfi⟩
  · exact format_leaf

/-- C2 witness: the general contract applied to the concrete leaf node. -/
theorem render_dict_contract_witness :
    STE.format (STE.mk Option.none (some "TB") []) "dict"
      = Except.ok (DVal.dict [("text", DVal.str "TB")]) :=
  render_dict_contract.2 "TB" (by decide)

/-- C9 counterexample: a scoped-block node built from the template `{v}` and
the explicit value `v = "{v}"` keeps a brace-carrying message and a
brace-carrying resolved value, yet `format('dict')` returns a value instead
of raising — the re-substitution happens to hit a valid field again. -/
theorem scope_reformat_braces_can_return :
    Tracer.mk_scope_exc (STE.mk Option.none (some "T") [])
      [ScopeArg.str "{v}", ScopeArg.dict [("v", PyVal.str "{v}")]] []
      = Except.ok (STE.mk (some (STE.mk Option.none (some "T") [])) (some "{v}")
          [("v", PyVal.str "{v}")]) ∧
    STE.format (STE.mk (some (STE.mk Option.none (some "T") [])) (some "{v}")
        [("v", PyVal.str "{v}")]) "dict"
      = Except.ok (DVal.dict [("text", DVal.str "{v}"),
          ("sub_exc", DVal.dict [("text", DVal.str "T")])]) ∧
    '\x7b' ∈ (pyStr (PyVal.str "{v}")).data :=
  ⟨rfl, rfl, by decide⟩

/-- C9 (amended): a scoped-block node built with a template and a non-empty
resolved map stores the once-formatted message together with that map, so
`format('dict')` runs the substitution a second time over the stored
message; rendering is total at this layer whenever the stored message
contains no brace, and it raises when the second pass hits a malformed or
unresolvable field — which some brace-carrying resolved values produce
(e.g. a lone closing brace) and others do not. -/
theorem scope_format_double_subst :
    (∀ (args : List ScopeArg) (trace : List Frame) (exc node : STE) (t : String),
      Tracer.mk_scope_exc exc args trace = Except.ok node →
      (Tracer.parse_args args).1 = some t →
      STE.params node ≠ [] →
      ∃ m, STE.text node = some m ∧
        pyFormat t (STE.params node) = Except.ok m ∧
        (m ≠ "" →
          STE.format node "dict"
            = match pyFormat m (STE.params node) with
              | Except.error fe => Except.error (PyErr.fmtErr fe)
              | Except.ok m2 =>
                match STE.format exc "dict" with
                | Except.error err => Except.error err
                | Except.ok d0 =>
                  Except.ok (DVal.dict ([("text", DVal.str m2)]
                    ++ [("sub_exc", d0)]))) ∧
        ((∀ c ∈ m.data, c ≠ '\x7b' ∧ c ≠ '\x7d') →
          pyFormat m (STE.params node) = Except.ok m)) ∧
    (Tracer.mk_scope_exc (STE.mk Option.none (some "T") [])
        [ScopeArg.str "{v}", ScopeArg.dict [("v", PyVal.str "\x7d")]] []
        = Except.ok (STE.mk (some (STE.mk Option.none (some "T") [])) (some "\x7d")
            [("v", PyVal.str "\x7d")]) ∧
      STE.format (STE.mk (some (STE.mk Option.none (some "T") [])) (some "\x7d")
          [("v", PyVal.str "\x7d")]) "dict"
        = Except.error (PyErr.fmtErr FmtErr.valueError)) := by
  constructor
  · intro args trace exc node t h hpt hpp
    rcases hq : Tracer.parse_args args with ⟨ts, pm⟩
    rw [hq] at hpt
    dsimp only at hpt
    subst hpt
    rw [Tracer.mk_scope_exc, hq] at h
    dsimp only at h
    cases hpf : pyFormat t (Tracer.gather_params (some t) pm
        (fun name => Tracer.lookup_stack_value trace name)) with
    | error fe =>
      rw [hpf] at h
      dsimp only at h
      cases h
    | ok m =>
      rw [hpf] at h
      dsimp only at h
      cases h
      simp only [STE.params_mk, STE.text_mk] at hpp ⊢
      refine ⟨m, rfl, hpf, ?_, pyFormat_braceFree m _⟩
      intro hm
      rw [STE.format, if_pos (Or.inl rfl), STE.textPart, if_neg hm, if_pos hpp]
      cases hm2 : pyFormat m (Tracer.gather_params (some t) pm
          (fun name => Tracer.lookup_stack_value trace name)) with
      | error fe => rfl
      | ok m2 => dsimp only
  · exact ⟨rfl, rfl⟩

/-- C9 witness: the general statement applied to the counterexample's node,
showing that `format('dict')` of that node is the second substitution pass
over the stored once-formatted message. -/
theorem scope_format_double_subst_witness :
    STE.format (STE.mk (some (STE.mk Option.none (some "T") [])) (some "{v}")
        [("v", PyVal.str "{v}")]) "dict"
      = match pyFormat "{v}" [("v", PyVal.str "{v}")] with
        | Except.error fe => Except.error (PyErr.fmtErr fe)
        | Except.ok m2 =>
          match STE.format (STE.mk Option.none (some "T") []) "dict" with
          | Except.error err => Except.error err
          | Except.ok d0 =>
            Except.ok (DVal.dict ([("text", DVal.str m2)] ++ [("sub_exc", d0)])) := by
  obtain ⟨m, hm1, hm2, hm3, hm4⟩ := scope_format_double_subst.1
    [ScopeArg.str "{v}", ScopeArg.dict [("v", PyVal.str "{v}")]] []
    (STE.mk Option.none (some "T") [])
    (STE.mk (some (STE.mk Option.none (some "T") [])) (some "{v}")
      [("v", PyVal.str "{v}")])
    "{v}" rfl rfl (by decide)
  rw [STE.text_mk] at hm1
  injection hm1 with hmeq
  subst hmeq
  exact hm3 (by decide)

theorem parse_args_fst_no_str (args : List ScopeArg)
    (h : ∀ a ∈ args, ∀ s, a ≠ ScopeArg.str s) :
    (Tracer.parse_args args).1 = Option.none := by
  suffices haux : ∀ acc : Option String × Dict,
      (args.foldl
        (fun acc a =>
          match a with
          | ScopeArg.dict d => (acc.1, d)
          | ScopeArg.str s => (some s, acc.2)
          | ScopeArg.excs _ => acc) acc).1 = acc.1 by
    exact haux (Option.none, [])
  induction args with
  | nil => intro acc; rfl
  | cons a rest ih =>
    intro acc
    have hr : ∀ b ∈ rest, ∀ s, b ≠ ScopeArg.str s :=
      fun b hb => h b (by simp [hb])
    cases a with
    | str s => exact absurd rfl (h (ScopeArg.str s) (by simp) s)
    | dict d => exact ih hr (acc.1, d)
    | excs ts => exact ih hr acc

/-- C8: a scoped-block annotation given no template argument wraps the
caught node with `message = None` and exactly the explicit value map of the
call (empty when none was passed), and rendering still succeeds, with no
`"text"` entry contributed at this layer. -/
theorem scope_no_template (exc : STE) (args : List ScopeArg) (trace : List Frame)
    (h : ∀ a ∈ args, ∀ s, a ≠ ScopeArg.str s) :
    Tracer.mk_scope_exc exc args trace
      = Except.ok (STE.mk (some exc) Option.none (Tracer.parse_args args).2) ∧
    (∀ d0, STE.format exc "dict" = Except.ok d0 →
      STE.format (STE.mk (some exc) Option.none (Tracer.parse_args args).2) "dict"
        = Except.ok (DVal.dict [("sub_exc", d0)])) := by
  constructor
  · rcases hq : Tracer.parse_args args with ⟨ts, pm⟩
    have hns := parse_args_fst_no_str args h
    rw [hq] at hns
    dsimp only at hns
    subst hns
    rw [Tracer.mk_scope_exc, hq]
  · intro d0 h0
    rw [STE.format, if_pos (Or.inl rfl)]
    dsimp only [STE.textPart]
    rw [h0]
    rfl

/-- C8 witness: a scope layer passing only an explicit map. -/
theorem scope_no_template_witness :
    Tracer.mk_scope_exc (STE.mk Option.none (some "TB") [])
      [ScopeArg.dict [("k", PyVal.int 5)]] []
      = Except.ok (STE.mk (some (STE.mk Option.none (some "TB") []))
          Option.none [("k", PyVal.int 5)]) ∧
    STE.format (STE.mk (some (STE.mk Option.none (some "TB") []))
        Option.none [("k", PyVal.int 5)]) "dict"
      = Except.ok (DVal.dict [("sub_exc", DVal.dict [("text", DVal.str "TB")])]) := by
  have h := scope_no_template (STE.mk Option.none (some "TB") [])
    [ScopeArg.dict [("k", PyVal.int 5)]] []
    (by
      intro a ha s heq
      rw [List.mem_singleton] at ha
      subst ha
      cases heq)
  exact ⟨h.1, h.2 (DVal.dict [("text", DVal.str "TB")]) rfl⟩

/-- C1: any function wrapped (classmethod or instance form) with the
template `Adding {v1} and {v2}` and called with `v1 = 1, v2 = 2`, whose
body raises a non-`StackTracerException` failure that no configured
pass-through set matches, raises a node whose `'dict'` rendering is exactly
the two-level chain of the formatted message over the original failure's
traceback text. -/
theorem traced_adding_renders_chain
    (args_name : List String) (args : List PyVal) (kwargs : Dict)
    (e : PyExc) (clsT : Option (List String)) (instT : List String)
    (h1 : Tracer.lookup_args_value "v1" args_name args kwargs = PyVal.int 1)
    (h2 : Tracer.lookup_args_value "v2" args_name args kwargs = PyVal.int 2)
    (htb : e.tb ≠ "")
    (hthc : tracedClsThrows clsT e = false)
    (hthi : tracedInstThrows instT clsT e = false) :
    tracedClsHandle Unit clsT "Adding {v1} and {v2}" args_name args kwargs
        (BodyResult.exc e)
      = Outcome.raisedSTE (STE.mk (some (STE.mk Option.none (some e.tb) []))
          (some "Adding 1 and 2") []) ∧
    tracedInstHandle Unit instT clsT "Adding {v1} and {v2}" args_name args kwargs
        (BodyResult.exc e)
      = Outcome.raisedSTE (STE.mk (some (STE.mk Option.none (some e.tb) []))
          (some "Adding 1 and 2") []) ∧
    STE.format (STE.mk (some (STE.mk Option.none (some e.tb) []))
        (some "Adding 1 and 2") []) "dict"
      = Except.ok (DVal.dict [("text", DVal.str "Adding 1 and 2"),
          ("sub_exc", DVal.dict [("text", DVal.str e.tb)])]) := by
  have hg : Tracer.gather_params (some "Adding {v1} and {v2}") []
      (fun name => Tracer.lookup_args_value name args_name args kwargs)
      = [("v1", Tracer.lookup_args_value "v1" args_name args kwargs),
         ("v2", Tracer.lookup_args_value "v2" args_name args kwargs)] := rfl
  rw [h1, h2] at hg
  have hmk : Tracer.mk_traced_exc (STE.mk Option.none (some e.tb) [])
      "Adding {v1} and {v2}" args_name args kwargs
      = Except.ok (STE.mk (some (STE.mk Option.none (some e.tb) []))
          (some "Adding 1 and 2") []) := by
    rw [Tracer.mk_traced_exc]
    simp only [STE.params_mk]
    rw [hg]
    rfl
  have hfmt : STE.format (STE.mk (some (STE.mk Option.none (some e.tb) []))
      (some "Adding 1 and 2") []) "dict"
      = Except.ok (DVal.dict [("text", DVal.str "Adding 1 and 2"),
          ("sub_exc", DVal.dict [("text", DVal.str e.tb)])]) := by
    rw [STE.format, if_pos (Or.inl rfl)]
    rw [show STE.textPart (some "Adding 1 and 2") ([] : Dict)
      = Except.ok [("text", DVal.str "Adding 1 and 2")] from rfl]
    dsimp only
    rw [format_leaf e.tb htb]
    rfl
  refine ⟨?_, ?_, hfmt⟩
  · rw [tracedClsHandle, hthc, if_neg (by simp), hmk]
  · rw [tracedInstHandle, hthi, if_neg (by simp), hmk]

/-- C1 witness: the concrete wrapped call `f(obj, 1, 2)` with declared
parameters `self, v1, v2` and a `KeyError`-like original failure. -/
theorem traced_adding_renders_chain_witness :
    tracedClsHandle Unit (some ["ZeroDivisionError"]) "Adding {v1} and {v2}"
        ["self", "v1", "v2"] [PyVal.str "obj", PyVal.int 1, PyVal.int 2] []
        (BodyResult.exc (PyExc.mk ["KeyError", "Exception"] "TB"))
      = Outcome.raisedSTE (STE.mk (some (STE.mk Option.none (some "TB") []))
          (some "Adding 1 and 2") []) ∧
    tracedInstHandle Unit [] (some ["ZeroDivisionError"]) "Adding {v1} and {v2}"
        ["self", "v1", "v2"] [PyVal.str "obj", PyVal.int 1, PyVal.int 2] []
        (BodyResult.exc (PyExc.mk ["KeyError", "Exception"] "TB"))
      = Outcome.raisedSTE (STE.mk (some (STE.mk Option.none (some "TB") []))
          (some "Adding 1 and 2") []) ∧
    STE.format (STE.mk (some (STE.mk Option.none (some "TB") []))
        (some "Adding 1 and 2") []) "dict"
      = Except.ok (DVal.dict [("text", DVal.str "Adding 1 and 2"),
          ("sub_exc", DVal.dict [("text", DVal.str "TB")])]) :=
  traced_adding_renders_chain ["self", "v1", "v2"]
    [PyVal.str "obj", PyVal.int 1, PyVal.int 2] []
    (PyExc.mk ["KeyError", "Exception"] "TB") (some ["ZeroDivisionError"]) []
    rfl rfl (by decide) rfl rfl

theorem exists_mem_append {P : String → Prop} (A B : List String) :
    (∃ t, t ∈ A ++ B ∧ P t) ↔ (∃ t, t ∈ A ∧ P t) ∨ (∃ t, t ∈ B ∧ P t) := by
  constructor
  · rintro ⟨t, ht, hp⟩
    rcases List.mem_append.mp ht with h | h
    · exact Or.inl ⟨t, h, hp⟩
    · exact Or.inr ⟨t, h, hp⟩
  · rintro (⟨t, h, hp⟩ | ⟨t, h, hp⟩)
    · exact ⟨t, List.mem_append.mpr (Or.inl h), hp⟩
    · exact ⟨t, List.mem_append.mpr (Or.inr h), hp⟩

theorem isinstanceT_iff (e : PyExc) (ts : List String) :
    isinstanceT e ts = true ↔ ∃ t, t ∈ ts ∧ e.classes.contains t = true := by
  simp [isinstanceT, List.any_eq_true]

theorem clsThrowsCheck_iff (clsT : Option (List String)) (e : PyExc) :
    clsThrowsCheck clsT e = true ↔
      ∃ t, t ∈ clsT.getD [] ∧ e.classes.contains t = true := by
  cases clsT with
  | none => simp [clsThrowsCheck]
  | some ts => simp [clsThrowsCheck, isinstanceT_iff]

theorem seqArgCheck_iff (args : List ScopeArg) (e : PyExc) :
    seqArgCheck args e = true ↔
      ∃ t, t ∈ (firstSeqArg args).getD [] ∧ e.classes.contains t = true := by
  cases h : firstSeqArg args with
  | none => simp [seqArgCheck, h]
  | some ts => simp [seqArgCheck, h, isinstanceT_iff]

/-- C3: at every annotation layer a non-`StackTracerException` failure is
classified pass-through exactly when one of the pass-through sets that
layer is configured with matches it — the union (OR) of the instance set,
the class-level set, and (for the scoped forms, which alone accept one) the
call-site set — and a pass-through failure is re-raised as the very same
exception object, with no Context Node built at that layer.  The wrapping
forms accept no call-site set, so their union ranges over the other
sources. -/
theorem passthrough_union_propagation (instT : List String)
    (clsT : Option (List String)) (args : List ScopeArg) (e : PyExc)
    (text_spec : String) (args_name : List String) (argvals : List PyVal)
    (kwargs : Dict) (trace : List Frame) :
    (tracedClsThrows clsT e = true ↔
      ∃ t, t ∈ clsT.getD [] ∧ e.classes.contains t = true) ∧
    (tracedInstThrows instT clsT e = true ↔
      ∃ t, t ∈ instT ++ clsT.getD [] ∧ e.classes.contains t = true) ∧
    (scopeClsThrows clsT args e = true ↔
      ∃ t, t ∈ clsT.getD [] ++ (firstSeqArg args).getD [] ∧
        e.classes.contains t = true) ∧
    (scopeInstThrows instT clsT args e = true ↔
      ∃ t, t ∈ instT ++ (clsT.getD [] ++ (firstSeqArg args).getD []) ∧
        e.classes.contains t = true) ∧
    (tracedClsThrows clsT e = true →
      tracedClsHandle Unit clsT text_spec args_name argvals kwargs
        (BodyResult.exc e) = Outcome.raisedExc e) ∧
    (tracedInstThrows instT clsT e = true →
      tracedInstHandle Unit instT clsT text_spec args_name argvals kwargs
        (BodyResult.exc e) = Outcome.raisedExc e) ∧
    (scopeClsThrows clsT args e = true →
      scopeClsHandle Unit clsT args trace (BodyResult.exc e)
        = Outcome.raisedExc e) ∧
    (scopeInstThrows instT clsT args e = true →
      scopeInstHandle Unit instT clsT args trace (BodyResult.exc e)
        = Outcome.raisedExc e) := by
  refine ⟨clsThrowsCheck_iff clsT e, ?_, ?_, ?_, ?_, ?_, ?_, ?_⟩
  · rw [exists_mem_append]
    rw [tracedInstThrows, Bool.or_eq_true, isinstanceT_iff, clsThrowsCheck_iff]
  · rw [exists_mem_append]
    rw [scopeClsThrows]
    cases hc : clsThrowsCheck clsT e with
    | true =>
      rw [if_pos rfl]
      rw [clsThrowsCheck_iff] at hc
      exact ⟨fun _ => Or.inl hc, fun _ => rfl⟩
    | false =>
      rw [if_neg (by simp)]
      have hnc : ¬ ∃ t, t ∈ clsT.getD [] ∧ e.classes.contains t = true := by
        rw [← clsThrowsCheck_iff, hc]
        simp
      rw [seqArgCheck_iff]
      constructor
      · intro hx
        exact Or.inr hx
      · rintro (hx | hx)
        · exact absurd hx hnc
        · exact hx
  · rw [exists_mem_append, exists_mem_append]
    rw [scopeInstThrows]
    cases hc : (isinstanceT e instT || clsThrowsCheck clsT e) with
    | true =>
      rw [if_pos rfl]
      rw [Bool.or_eq_true, isinstanceT_iff, clsThrowsCheck_iff] at hc
      refine ⟨fun _ => ?_, fun _ => rfl⟩
      rcases hc with hx | hx
      · exact Or.inl hx
      · exact Or.inr (Or.inl hx)
    | false =>
      rw [if_neg (by simp)]
      have hca : isinstanceT e instT = false := by
        cases hb : isinstanceT e instT
        · rfl
        · rw [hb] at hc
          simp at hc
      have hcb : clsThrowsCheck clsT e = false := by
        cases hb : clsThrowsCheck clsT e
        · rfl
        · rw [hb] at hc
          simp at hc
      have hc1 : ¬ ∃ t, t ∈ instT ∧ e.classes.contains t = true := by
        rw [← isinstanceT_iff, hca]
        simp
      have hc2 : ¬ ∃ t, t ∈ clsT.getD [] ∧ e.classes.contains t = true := by
        rw [← clsThrowsCheck_iff, hcb]
        simp
      rw [seqArgCheck_iff]
      constructor
      · intro hx
        exact Or.inr (Or.inr hx)
      · rintro (hx | hx | hx)
        · exact absurd hx hc1
        · exact absurd hx hc2
        · exact hx
  · intro h
    rw [tracedClsHandle, h, if_pos rfl]
  · intro h
    rw [tracedInstHandle, h, if_pos rfl]
  · intro h
    rw [scopeClsHandle, h, if_pos rfl]
  · intro h
    rw [scopeInstHandle, h, if_pos rfl]

/-- C3 witness: a call-site set alone marks a `KeyError` pass-through in the
instance scope form, and the original exception object escapes unchanged. -/
theorem passthrough_union_propagation_witness :
    scopeInstHandle Unit [] Option.none [ScopeArg.excs ["KeyError"]] []
        (BodyResult.exc (PyExc.mk ["KeyError", "Exception"] "TB"))
      = Outcome.raisedExc (PyExc.mk ["KeyError", "Exception"] "TB") :=
  (passthrough_union_propagation [] Option.none [ScopeArg.excs ["KeyError"]]
    (PyExc.mk ["KeyError", "Exception"] "TB") "" [] [] [] []).2.2.2.2.2.2.2
    (by decide)

/-- C4: evaluation of `lookup_stack_value` at a three-frame trace whose
name is bound in both the innermost frame (`trace[2]`, value `20`) and the
frame outside it (`trace[1]`, value `10`): the loop reads `trace[-i]` for
`i = n-1, …, 1, 0`, i.e. the frames `trace[1], …, trace[n-1], trace[0]`,
so it answers the outer binding `10` where an innermost-first search would
answer `20`. -/
theorem lookup_stack_value_order_bug :
    Tracer.lookup_stack_value
      [Frame.mk [], Frame.mk [("x", PyVal.int 10)], Frame.mk [("x", PyVal.int 20)]]
      "x" = PyVal.int 10 ∧
    Tracer.lookup_stack_value
      [Frame.mk [], Frame.mk [("x", PyVal.int 10)], Frame.mk [("x", PyVal.int 20)]]
      "x" ≠ PyVal.int 20 :=
  ⟨rfl, by decide⟩

end Ctxt
